import Mathlib

/-!
Verification development for the market_aggregator repository.

The Rust sources are shallowly embedded:
  * `BigDecimal` prices and quantities become `Rat` (exact decimal arithmetic);
  * `BTreeMap<BigDecimal, V>` becomes a list of key/value pairs kept sorted in
    strictly ascending key order (the iteration order of a `BTreeMap`);
  * the process-wide `HashMap<String, Orderbook>` accumulators become
    association lists threaded through the parser functions explicitly;
  * fallible Rust code returns `Except`/option-shaped results, and the
    out-of-bounds indexing that Rust turns into a panic is made explicit with
    a dedicated `PResult.panic` outcome;
  * wall-clock timestamps (`get_unixtime`) are modeled as the constant 0,
    since no property verified here depends on time.
-/

namespace MarketAgg

/-- Side of the book, from src/orderbook.rs (enum Side). -/
inductive Side where
  | Bid
  | Ask
deriving DecidableEq, Repr

/-- A side of an orderbook: the embedding of BTreeMap<BigDecimal, BigDecimal>
as a list of (price, quantity) pairs sorted by strictly ascending price. -/
abbrev SideMap := List (Rat × Rat)

/-- The sortedness invariant a BTreeMap maintains for its iteration order:
keys strictly ascend. -/
abbrev sortedKeys {α : Type} (m : List (Rat × α)) : Prop :=
  List.Pairwise (fun x y => x.1 < y.1) m

/-- BTreeMap::get as key lookup on the sorted-list embedding. -/
def lookupKey (m : SideMap) (p : Rat) : Option Rat :=
  match m with
  | [] => none
  | (q, w) :: rest => if p = q then some w else lookupKey rest p

/-- BTreeMap::remove on the sorted-list embedding: drop the entry with the
given key, if present. -/
def mapRemove (m : SideMap) (p : Rat) : SideMap :=
  match m with
  | [] => []
  | (q, w) :: rest => if p = q then rest else (q, w) :: mapRemove rest p

/-- BTreeMap::insert on the sorted-list embedding: place the key at its
sorted position, replacing an existing entry with the same key. -/
def mapInsert (m : SideMap) (p v : Rat) : SideMap :=
  match m with
  | [] => [(p, v)]
  | (q, w) :: rest =>
    if p < q then (p, v) :: (q, w) :: rest
    else if p = q then (p, v) :: rest
    else (q, w) :: mapInsert rest p v

/-- The Orderbook struct from src/orderbook.rs. -/
structure Orderbook where
  name : String
  bid : SideMap
  ask : SideMap
  volume : Rat
  last_price : Rat
  timestamp : Nat
deriving DecidableEq, Repr

/-- Orderbook::new (src/orderbook.rs, lines 52-61); the wall-clock timestamp
is modeled as 0. -/
def Orderbook.new (name : String) : Orderbook :=
  { name := name, bid := [], ask := [], volume := 0, last_price := 0, timestamp := 0 }

/-- Orderbook::clear (src/orderbook.rs, lines 32-35): empty both sides,
ticker fields retained. -/
def Orderbook.clear (ob : Orderbook) : Orderbook :=
  { ob with bid := [], ask := [] }

/-- Orderbook::insert (src/orderbook.rs, lines 36-51): remove the price from
the side, then insert the new quantity unless it is zero. -/
def Orderbook.insert (ob : Orderbook) (side : Side) (price volume : Rat) : Orderbook :=
  match side with
  | .Bid =>
    let bid := mapRemove ob.bid price
    { ob with bid := if volume = 0 then bid else mapInsert bid price volume }
  | .Ask =>
    let ask := mapRemove ob.ask price
    { ob with ask := if volume = 0 then ask else mapInsert ask price volume }

/-- The loop `for _ in (level)..l { self.bid.pop_first(); }`: pop the first
(lowest) key n times. On the ascending list this removes the head each time. -/
def popFirstN : Nat → SideMap → SideMap
  | 0, m => m
  | n + 1, m => popFirstN n m.tail

/-- The loop `for _ in (level)..l { self.ask.pop_last(); }`: pop the last
(highest) key n times. On the ascending list this removes the final entry. -/
def popLastN : Nat → SideMap → SideMap
  | 0, m => m
  | n + 1, m => popLastN n m.dropLast

/-- Orderbook::trim (src/orderbook.rs, lines 63-72): pop the lowest bids and
the highest asks until each side has at most `level` entries. -/
def Orderbook.trim (ob : Orderbook) (level : Nat) : Orderbook :=
  { ob with
    bid := popFirstN (ob.bid.length - level) ob.bid,
    ask := popLastN (ob.ask.length - level) ob.ask }

lemma popFirstN_eq_drop (n : Nat) (m : SideMap) : popFirstN n m = m.drop n := by
  induction n generalizing m with
  | zero => simp [popFirstN]
  | succ n ih =>
    cases m with
    | nil => simp [popFirstN, ih]
    | cons x xs => simp [popFirstN, ih, List.tail]

lemma popLastN_eq_take (n : Nat) (m : SideMap) : popLastN n m = m.take (m.length - n) := by
  induction n generalizing m with
  | zero => simp [popLastN]
  | succ n ih =>
    rw [popLastN, ih, List.dropLast_eq_take, List.take_take, List.length_take]
    congr 1
    omega

lemma trim_bid_eq (ob : Orderbook) (L : Nat) :
    (ob.trim L).bid = ob.bid.drop (ob.bid.length - L) := by
  simp [Orderbook.trim, popFirstN_eq_drop]

lemma trim_ask_eq (ob : Orderbook) (L : Nat) :
    (ob.trim L).ask = ob.ask.take L := by
  rw [Orderbook.trim]
  show popLastN (ob.ask.length - L) ob.ask = ob.ask.take L
  rw [popLastN_eq_take]
  rcases Nat.le_total L ob.ask.length with h | h
  · congr 1
    omega
  · rw [Nat.sub_eq_zero_of_le h, Nat.sub_zero, List.take_length]
    exact (List.take_of_length_le h).symm

lemma trim_bid_length_le (ob : Orderbook) (L : Nat) : (ob.trim L).bid.length ≤ L := by
  rw [trim_bid_eq, List.length_drop]
  omega

lemma trim_ask_length_le (ob : Orderbook) (L : Nat) : (ob.trim L).ask.length ≤ L := by
  rw [trim_ask_eq, List.length_take]
  omega

/-- C5: after trim(L) each side holds at most L entries; the bid side keeps
exactly the suffix of the ascending bid list (the L highest prices, the
lowest keys being evicted), the ask side keeps exactly the prefix (the L
lowest prices, the highest keys being evicted); kept entries are unchanged,
and every evicted bid price is below every kept bid price, every kept ask
price below every evicted ask price. -/
theorem trim_keeps_best_levels (b : Orderbook) (L : Nat)
    (hb : sortedKeys b.bid) (ha : sortedKeys b.ask) :
    (b.trim L).bid.length ≤ L ∧ (b.trim L).ask.length ≤ L
    ∧ (b.trim L).bid = b.bid.drop (b.bid.length - L)
    ∧ (b.trim L).ask = b.ask.take L
    ∧ (∀ x ∈ b.bid.take (b.bid.length - L), ∀ y ∈ (b.trim L).bid, x.1 < y.1)
    ∧ (∀ x ∈ (b.trim L).ask, ∀ y ∈ b.ask.drop L, x.1 < y.1) := by
  refine ⟨trim_bid_length_le b L, trim_ask_length_le b L, trim_bid_eq b L, trim_ask_eq b L, ?_, ?_⟩
  · rw [trim_bid_eq]
    have h : List.Pairwise (fun x y : Rat × Rat => x.1 < y.1)
        (b.bid.take (b.bid.length - L) ++ b.bid.drop (b.bid.length - L)) := by
      rwa [List.take_append_drop]
    exact (List.pairwise_append.mp h).2.2
  · rw [trim_ask_eq]
    have h : List.Pairwise (fun x y : Rat × Rat => x.1 < y.1)
        (b.ask.take L ++ b.ask.drop L) := by
      rwa [List.take_append_drop]
    exact (List.pairwise_append.mp h).2.2

/-- A concrete orderbook used to instantiate trim. -/
def bW : Orderbook :=
  { name := "w", bid := [(1, 10), (2, 20)], ask := [(1, 5), (2, 6)],
    volume := 0, last_price := 0, timestamp := 0 }

/-- Witness for trim_keeps_best_levels at the concrete book bW and L = 1. -/
theorem trim_keeps_best_levels_witness :
    (bW.trim 1).bid = bW.bid.drop (bW.bid.length - 1) ∧ (bW.trim 1).ask = bW.ask.take 1 :=
  ⟨(trim_keeps_best_levels bW 1 (by decide) (by decide)).2.2.1,
   (trim_keeps_best_levels bW 1 (by decide) (by decide)).2.2.2.1⟩

/-! ## Aggregator (src/orderbook.rs, AggregatedOrderbook) -/

/-- Level from the generated grpc Summary message (proto). -/
structure Level where
  exchange : String
  price : Rat
  amount : Rat
deriving DecidableEq, Repr

/-- Summary from the generated grpc message (proto): spread is an f64 in the
source, modeled exactly as Rat (the BigDecimal→f64 conversions in finalize
are modeled as exact). -/
structure Summary where
  spread : Rat
  bids : List Level
  asks : List Level
deriving DecidableEq, Repr

/-- One side of an AggregatedOrderbook: BTreeMap<BigDecimal, Vec<(String, BigDecimal)>>
as an ascending sorted list of (price, entries) pairs. -/
abbrev AggMap := List (Rat × List (String × Rat))

/-- The AggregatedOrderbook struct: spread is f64, NaN on construction; the
NaN is modeled as none. -/
structure AggregatedOrderbook where
  spread : Option Rat
  bid : AggMap
  ask : AggMap
deriving DecidableEq, Repr

/-- AggregatedOrderbook::new (src/orderbook.rs, lines 103-109). -/
def AggregatedOrderbook.new : AggregatedOrderbook :=
  { spread := none, bid := [], ask := [] }

/-- The body of merge's per-entry update
`self.bid.entry(price).and_modify(|e| e.push(..)).or_insert_with(|| vec![..])`:
append the (venue, quantity) entry at the price key, creating the key at its
sorted position when absent. -/
def aggInsertEntry (m : AggMap) (p : Rat) (e : String × Rat) : AggMap :=
  match m with
  | [] => [(p, [e])]
  | (q, v) :: rest =>
    if p < q then (p, [e]) :: (q, v) :: rest
    else if p = q then (q, v ++ [e]) :: rest
    else (q, v) :: aggInsertEntry rest p e

/-- One `for (price, volume) in orderbook.side.iter()` loop of merge: fold the
per-entry update over the book's ascending side. -/
def pushEntries (name : String) : AggMap → List (Rat × Rat) → AggMap
  | m, [] => m
  | m, (p, v) :: rest => pushEntries name (aggInsertEntry m p (name, v)) rest

/-- AggregatedOrderbook::merge (src/orderbook.rs, lines 87-102): append every
(price, quantity) of the book to the aggregated maps and set spread to 0.0. -/
def AggregatedOrderbook.merge (agg : AggregatedOrderbook) (ob : Orderbook) : AggregatedOrderbook :=
  { spread := some 0,
    bid := pushEntries ob.name agg.bid ob.bid,
    ask := pushEntries ob.name agg.ask ob.ask }

/-- The inner entry loop of finalize (src/orderbook.rs, lines 117-131): emit a
Level per (exchange, volume) entry at the price, incrementing the counter and
breaking out of both loops when it reaches 10. Returns the emitted levels,
the updated counter, and whether the 10-entry break fired. -/
def emitEntries (price : Rat) : Nat → List (String × Rat) → List Level × Nat × Bool
  | counter, [] => ([], counter, false)
  | counter, (ex, vol) :: rest =>
    if counter + 1 = 10 then ([⟨ex, price, vol⟩], counter + 1, true)
    else
      ((⟨ex, price, vol⟩ : Level) :: (emitEntries price (counter + 1) rest).1,
       (emitEntries price (counter + 1) rest).2.1,
       (emitEntries price (counter + 1) rest).2.2)

/-- The outer cursor loop of finalize (`for _ in 0..level`): visit at most
`level` price keys in traversal order, threading the entry counter, stopping
early when the 10-entry break fired or the cursor runs out of keys. -/
def emitLevels : Nat → Nat → AggMap → List Level
  | 0, _, _ => []
  | _ + 1, _, [] => []
  | l + 1, counter, (p, v) :: rest =>
    if (emitEntries p counter v).2.2 then (emitEntries p counter v).1
    else (emitEntries p counter v).1 ++ emitLevels l (emitEntries p counter v).2.1 rest

/-- The spread computation at the end of finalize (src/orderbook.rs, lines
172-177): first-emitted ask price minus first-emitted bid price, 0.0 when
either side emitted nothing. -/
def spreadOf (bids asks : List Level) : Rat :=
  match bids.head?, asks.head? with
  | some v, some w => w.price - v.price
  | _, _ => 0

/-- AggregatedOrderbook::finalize (src/orderbook.rs, lines 111-179): the bid
cursor starts at the greatest key and moves to previous keys (descending:
the reverse of the ascending list), the ask cursor starts at the least key
and moves to next keys (ascending). The BigDecimal→f64 conversions are
modeled as exact, so the conversion-error Result branch cannot fire and the
Summary is returned directly. -/
def AggregatedOrderbook.finalize (agg : AggregatedOrderbook) (level : Nat) : Summary :=
  { spread := spreadOf (emitLevels level 0 agg.bid.reverse) (emitLevels level 0 agg.ask),
    bids := emitLevels level 0 agg.bid.reverse,
    asks := emitLevels level 0 agg.ask }

lemma emitEntries_counter_eq (p : Rat) (c : Nat) (v : List (String × Rat)) :
    (emitEntries p c v).2.1 = c + (emitEntries p c v).1.length := by
  induction v generalizing c with
  | nil => simp [emitEntries]
  | cons e rest ih =>
    obtain ⟨ex, vol⟩ := e
    simp only [emitEntries]
    split
    · simp
    · simp only [List.length_cons]
      rw [ih (c + 1)]
      omega

lemma emitEntries_hit_counter (p : Rat) (c : Nat) (v : List (String × Rat))
    (h : (emitEntries p c v).2.2 = true) : (emitEntries p c v).2.1 = 10 := by
  induction v generalizing c with
  | nil => simp [emitEntries] at h
  | cons e rest ih =>
    obtain ⟨ex, vol⟩ := e
    simp only [emitEntries] at h ⊢
    split at h
    · simp_all
    · simp only at h
      rw [if_neg (by assumption)]
      exact ih (c + 1) h

lemma emitEntries_nohit_lt (p : Rat) (c : Nat) (v : List (String × Rat))
    (hc : c < 10) (h : (emitEntries p c v).2.2 = false) : (emitEntries p c v).2.1 < 10 := by
  induction v generalizing c with
  | nil => simpa [emitEntries] using hc
  | cons e rest ih =>
    obtain ⟨ex, vol⟩ := e
    simp only [emitEntries] at h ⊢
    split at h
    · simp_all
    · simp only at h
      rw [if_neg (by assumption)]
      exact ih (c + 1) (by omega) h

lemma emitEntries_length_le (p : Rat) (c : Nat) (v : List (String × Rat)) :
    (emitEntries p c v).1.length ≤ v.length := by
  induction v generalizing c with
  | nil => simp [emitEntries]
  | cons e rest ih =>
    obtain ⟨ex, vol⟩ := e
    simp only [emitEntries]
    split
    · simp
    · simpa using ih (c + 1)

lemma emitEntries_price_eq (p : Rat) (c : Nat) (v : List (String × Rat)) :
    ∀ lv ∈ (emitEntries p c v).1, lv.price = p := by
  induction v generalizing c with
  | nil => simp [emitEntries]
  | cons e rest ih =>
    obtain ⟨ex, vol⟩ := e
    simp only [emitEntries]
    split
    · simp
    · intro lv hlv
      rcases List.mem_cons.mp hlv with h | h
      · rw [h]
      · exact ih (c + 1) lv h

lemma emitLevels_length_le_ten (L : Nat) (c : Nat) (m : AggMap) (hc : c < 10) :
    (emitLevels L c m).length ≤ 10 - c := by
  induction L generalizing c m with
  | zero => simp [emitLevels]
  | succ l ih =>
    cases m with
    | nil => simp [emitLevels]
    | cons pv rest =>
      obtain ⟨p, v⟩ := pv
      simp only [emitLevels]
      split
      · have h10 := emitEntries_hit_counter p c v (by assumption)
        have hcc := emitEntries_counter_eq p c v
        omega
      · have hlt := emitEntries_nohit_lt p c v hc (by simpa using (by assumption : ¬ (emitEntries p c v).2.2 = true))
        have hcc := emitEntries_counter_eq p c v
        have hrec := ih (emitEntries p c v).2.1 rest hlt
        rw [List.length_append]
        omega

lemma emitLevels_length_le_sum (L : Nat) (c : Nat) (m : AggMap) :
    (emitLevels L c m).length ≤ ((m.take L).map (fun pv => pv.2.length)).sum := by
  induction L generalizing c m with
  | zero => simp [emitLevels]
  | succ l ih =>
    cases m with
    | nil => simp [emitLevels]
    | cons pv rest =>
      obtain ⟨p, v⟩ := pv
      simp only [emitLevels, List.take_succ_cons, List.map_cons, List.sum_cons]
      split
      · have := emitEntries_length_le p c v
        omega
      · have h1 := emitEntries_length_le p c v
        have h2 := ih (emitEntries p c v).2.1 rest
        rw [List.length_append]
        omega

lemma emitLevels_price_mem (L : Nat) (c : Nat) (m : AggMap) :
    ∀ lv ∈ emitLevels L c m, lv.price ∈ (m.take L).map (fun pv => pv.1) := by
  induction L generalizing c m with
  | zero => simp [emitLevels]
  | succ l ih =>
    cases m with
    | nil => simp [emitLevels]
    | cons pv rest =>
      obtain ⟨p, v⟩ := pv
      simp only [emitLevels, List.take_succ_cons, List.map_cons]
      split
      · intro lv hlv
        rw [emitEntries_price_eq p c v lv hlv]
        exact List.mem_cons_self _ _
      · intro lv hlv
        rcases List.mem_append.mp hlv with h | h
        · rw [emitEntries_price_eq p c v lv h]
          exact List.mem_cons_self _ _
        · exact List.mem_cons_of_mem _ (ih (emitEntries p c v).2.1 rest lv h)

/-- C4: finalize(L) emits at most min(10, total entry count over the first L
price keys in traversal order) levels per side, and every emitted price is
one of those first L keys (so at most L distinct prices are visited). The
bid traversal order is the reverse of the ascending bid map, i.e. the top L
bid prices; the ask traversal order is ascending, i.e. the bottom L ask
prices. -/
theorem finalize_caps (agg : AggregatedOrderbook) (L : Nat) :
    ((agg.finalize L).bids.length
        ≤ min 10 (((agg.bid.reverse.take L).map (fun pv => pv.2.length)).sum))
    ∧ ((agg.finalize L).asks.length
        ≤ min 10 (((agg.ask.take L).map (fun pv => pv.2.length)).sum))
    ∧ (∀ lv ∈ (agg.finalize L).bids, lv.price ∈ (agg.bid.reverse.take L).map (fun pv => pv.1))
    ∧ (∀ lv ∈ (agg.finalize L).asks, lv.price ∈ (agg.ask.take L).map (fun pv => pv.1)) := by
  refine ⟨?_, ?_, ?_, ?_⟩
  · exact le_min (by simpa using emitLevels_length_le_ten L 0 agg.bid.reverse (by norm_num))
      (emitLevels_length_le_sum L 0 agg.bid.reverse)
  · exact le_min (by simpa using emitLevels_length_le_ten L 0 agg.ask (by norm_num))
      (emitLevels_length_le_sum L 0 agg.ask)
  · exact emitLevels_price_mem L 0 agg.bid.reverse
  · exact emitLevels_price_mem L 0 agg.ask

/-- A concrete aggregated book used to instantiate the finalize theorems. -/
def aggW : AggregatedOrderbook :=
  { spread := none, bid := [(1, [("A", 2)])], ask := [(3, [("B", 4)])] }

/-- Witness for finalize_caps at the concrete aggregated book aggW. -/
theorem finalize_caps_witness :
    (aggW.finalize 5).bids.length
      ≤ min 10 (((aggW.bid.reverse.take 5).map (fun pv => pv.2.length)).sum)
    ∧ (⟨"A", 1, 2⟩ : Level).price ∈ (aggW.bid.reverse.take 5).map (fun pv => pv.1) :=
  ⟨(finalize_caps aggW 5).1, (finalize_caps aggW 5).2.2.1 ⟨"A", 1, 2⟩ (by decide)⟩

/-- C7: the Summary of finalize(L) has spread 0 when either emitted side is
empty, and spread equal to (first ask price − first bid price) when both
sides are non-empty. -/
theorem finalize_spread_spec (agg : AggregatedOrderbook) (L : Nat) :
    ((agg.finalize L).bids = [] ∨ (agg.finalize L).asks = [] → (agg.finalize L).spread = 0)
    ∧ (∀ b a, (agg.finalize L).bids.head? = some b → (agg.finalize L).asks.head? = some a →
        (agg.finalize L).spread = a.price - b.price) := by
  constructor
  · rintro (h | h) <;>
      simp only [AggregatedOrderbook.finalize] at h ⊢ <;>
      simp [spreadOf, h]
  · intro b a hb ha
    simp only [AggregatedOrderbook.finalize] at hb ha ⊢
    simp [spreadOf, hb, ha]

/-- Witness for finalize_spread_spec at the concrete aggregated book aggW:
both sides emit one level, so the spread is the ask price 3 minus the bid
price 1. -/
theorem finalize_spread_spec_witness : (aggW.finalize 10).spread = (3 : Rat) - 1 :=
  (finalize_spread_spec aggW 10).2 ⟨"A", 1, 2⟩ ⟨"B", 3, 4⟩ rfl rfl

lemma aggInsertEntry_comm (p q : Rat) (e f : String × Rat) (hpq : p ≠ q) (m : AggMap) :
    aggInsertEntry (aggInsertEntry m p e) q f = aggInsertEntry (aggInsertEntry m q f) p e := by
  induction m with
  | nil =>
    rcases lt_trichotomy p q with h | h | h
    · simp [aggInsertEntry, h, lt_asymm h, hpq, hpq.symm]
    · exact absurd h hpq
    · simp [aggInsertEntry, h, lt_asymm h, hpq, hpq.symm]
  | cons rwp rest ih =>
    obtain ⟨r, w⟩ := rwp
    rcases lt_trichotomy p r with hp | hp | hp <;> rcases lt_trichotomy q r with hq | hq | hq
    · rcases lt_trichotomy p q with h | h | h
      · simp [aggInsertEntry, hp, hq, h, lt_asymm h, hpq, hpq.symm]
      · exact absurd h hpq
      · simp [aggInsertEntry, hp, hq, h, lt_asymm h, hpq, hpq.symm]
    · subst hq
      simp [aggInsertEntry, hp, lt_asymm hp, hpq, hpq.symm, lt_irrefl]
    · have hpltq : p < q := lt_trans hp hq
      simp [aggInsertEntry, hp, hq, lt_asymm hq, hq.ne', hpltq, lt_asymm hpltq, hpq, hpq.symm]
    · subst hp
      simp [aggInsertEntry, hq, lt_asymm hq, hpq, hpq.symm, lt_irrefl]
    · exact absurd (hp.trans hq.symm) hpq
    · subst hp
      simp [aggInsertEntry, hq, lt_asymm hq, hq.ne', hpq, hpq.symm, lt_irrefl]
    · have hqltp : q < p := lt_trans hq hp
      simp [aggInsertEntry, hp, hq, lt_asymm hp, hp.ne', hqltp, lt_asymm hqltp, hpq, hpq.symm]
    · subst hq
      simp [aggInsertEntry, hp, lt_asymm hp, hp.ne', hpq, hpq.symm, lt_irrefl]
    · simp [aggInsertEntry, hp, hq, lt_asymm hp, lt_asymm hq, hp.ne', hq.ne', ih]

lemma pushEntries_insert_comm (name : String) (p : Rat) (e : String × Rat) :
    ∀ (ys : List (Rat × Rat)) (m : AggMap), (∀ y ∈ ys, y.1 ≠ p) →
      pushEntries name (aggInsertEntry m p e) ys = aggInsertEntry (pushEntries name m ys) p e := by
  intro ys
  induction ys with
  | nil => intro m _; rfl
  | cons y ys ih =>
    intro m h
    obtain ⟨yp, yv⟩ := y
    simp only [pushEntries]
    rw [aggInsertEntry_comm p yp e (name, yv) (Ne.symm (h (yp, yv) (List.mem_cons_self _ _))) m]
    exact ih (aggInsertEntry m yp (name, yv)) (fun z hz => h z (List.mem_cons_of_mem _ hz))

lemma pushEntries_swap (n1 n2 : String) :
    ∀ (xs ys : List (Rat × Rat)) (m : AggMap),
      (∀ x ∈ xs, ∀ y ∈ ys, x.1 ≠ y.1) →
      pushEntries n2 (pushEntries n1 m xs) ys = pushEntries n1 (pushEntries n2 m ys) xs := by
  intro xs
  induction xs with
  | nil => intro ys m _; rfl
  | cons x xs ih =>
    intro ys m h
    obtain ⟨xp, xv⟩ := x
    simp only [pushEntries]
    rw [ih ys (aggInsertEntry m xp (n1, xv)) (fun a ha b hb => h a (List.mem_cons_of_mem _ ha) b hb),
        pushEntries_insert_comm n2 xp (n1, xv) ys m
          (fun y hy => Ne.symm (h (xp, xv) (List.mem_cons_self _ _) y hy))]

/-- C1 (amended): merging two orderbooks into a fresh AggregatedOrderbook in
either order and finalizing yields the same Summary, provided the two books
share no bid price and no ask price. (At a shared price the per-key entry
order is the merge order, so the full sequences can differ; see the
counterexample.) -/
theorem merge_comm_of_disjoint_prices (ob1 ob2 : Orderbook) (L : Nat)
    (hb : ∀ x ∈ ob1.bid, ∀ y ∈ ob2.bid, x.1 ≠ y.1)
    (ha : ∀ x ∈ ob1.ask, ∀ y ∈ ob2.ask, x.1 ≠ y.1) :
    ((AggregatedOrderbook.new.merge ob1).merge ob2).finalize L
      = ((AggregatedOrderbook.new.merge ob2).merge ob1).finalize L := by
  have hmap : (AggregatedOrderbook.new.merge ob1).merge ob2
      = (AggregatedOrderbook.new.merge ob2).merge ob1 := by
    simp only [AggregatedOrderbook.merge, AggregatedOrderbook.new]
    rw [pushEntries_swap ob1.name ob2.name ob1.bid ob2.bid [] hb,
        pushEntries_swap ob1.name ob2.name ob1.ask ob2.ask [] ha]
  rw [hmap]

/-- Venue A with a single ask at price 1. -/
def obA : Orderbook :=
  { name := "A", bid := [], ask := [(1, 10)], volume := 0, last_price := 0, timestamp := 0 }

/-- Venue B with a single ask at the same price 1. -/
def obB : Orderbook :=
  { name := "B", bid := [], ask := [(1, 10)], volume := 0, last_price := 0, timestamp := 0 }

/-- Venue C with a single ask at price 2, disjoint from obA. -/
def obC : Orderbook :=
  { name := "C", bid := [], ask := [(2, 10)], volume := 0, last_price := 0, timestamp := 0 }

/-- Counterexample to C1 as stated: with two venues holding asks at the same
price 1, merge(obA); merge(obB); finalize(4) emits asks [(A,1),(B,1)] while
the reverse merge order emits [(B,1),(A,1)], so the Summaries differ. -/
theorem merge_not_comm_shared_price :
    ((AggregatedOrderbook.new.merge obA).merge obB).finalize 4
      ≠ ((AggregatedOrderbook.new.merge obB).merge obA).finalize 4 := by decide

/-- Witness for merge_comm_of_disjoint_prices at the concrete disjoint books
obA and obC. -/
theorem merge_comm_of_disjoint_prices_witness :
    ((AggregatedOrderbook.new.merge obA).merge obC).finalize 4
      = ((AggregatedOrderbook.new.merge obC).merge obA).finalize 4 :=
  merge_comm_of_disjoint_prices obA obC 4 (by decide) (by decide)

/-! ## JSON values and decimal parsing

The venue parsers in src/apitree/wsapi.rs consume serde_json Values. A JSON
value is embedded as JVal; BigDecimal::from_str is embedded as parseDecimal
over plain sign/integer/fraction decimal strings (the scientific notation
BigDecimal also accepts is not exercised by any frame in this development). -/

/-- A JSON value as produced by serde_json. -/
inductive JVal where
  | null
  | jbool (b : Bool)
  | jnum (q : Rat)
  | jstr (s : String)
  | jarr (xs : List JVal)
  | jobj (fields : List (String × JVal))

/-- The comparison `result.result != Value::Null`. -/
def JVal.isNull : JVal → Bool
  | .null => true
  | _ => false

/-- serde_json::from_value::<String>. -/
def JVal.asString : JVal → Option String
  | .jstr s => some s
  | _ => none

/-- str::starts_with, embedded structurally over the character lists. -/
def startsWithStr (s pre : String) : Bool := pre.data.isPrefixOf s.data

/-- Digits of a decimal literal folded into a natural number. -/
def digitsToNat (ds : List Char) : Nat :=
  ds.foldl (fun n c => n * 10 + (c.toNat - 48)) 0

/-- BigDecimal::from_str on sign/integer/fraction decimal strings; none is a
parse error (propagated with `?` in the Rust code). -/
def parseDecimal (s : String) : Option Rat :=
  let cs := s.toList
  let signAndRest : Bool × List Char :=
    match cs with
    | '-' :: rest => (true, rest)
    | '+' :: rest => (false, rest)
    | _ => (false, cs)
  let neg := signAndRest.1
  let cs2 := signAndRest.2
  let ip := cs2.takeWhile Char.isDigit
  let rest := cs2.dropWhile Char.isDigit
  let fp : Option (List Char) :=
    match rest with
    | [] => some []
    | '.' :: fr => if fr.all Char.isDigit then some fr else none
    | _ => none
  match fp with
  | none => none
  | some fr =>
    if ip.isEmpty ∧ fr.isEmpty then none
    else
      let q : Rat := mkRat (Int.ofNat (digitsToNat (ip ++ fr))) (10 ^ fr.length)
      some (if neg then -q else q)

/-! ## Binance-family parser (src/apitree/wsapi.rs, lines 43-108) -/

/-- The PartialBookDepth struct, all fields serde defaults, as obtained from
any JSON object whose "e" field is not "24hrTicker". -/
structure PartialBookDepth where
  last_update_id : Nat
  bids : List (String × String)
  asks : List (String × String)
  result : JVal
  id : Nat

/-- The Ticker struct, as obtained from a JSON object with "e" = "24hrTicker". -/
structure Ticker where
  event_type : String
  close : String
  volume : String
  symbol : String

/-- The dispatch on `result["e"].as_str() == Some("24hrTicker")` performed by
binance_parse after serde_json::from_str succeeds: a frame is either a
ticker event or (any other object) a PartialBookDepth with defaulted fields. -/
inductive BinanceMsg where
  | ticker (t : Ticker)
  | depth (d : PartialBookDepth)

/-- The process-wide HashMap<String, Orderbook> accumulators (BINANCE and
KRAKEN statics), threaded explicitly. -/
abbrev StrMap := List (String × Orderbook)

/-- HashMap::get on the accumulator. -/
def stLookup : StrMap → String → Option Orderbook
  | [], _ => none
  | (k, ob) :: rest, key => if key = k then some ob else stLookup rest key

/-- HashMap::insert on the accumulator: replace the existing entry or append. -/
def stInsert : StrMap → String → Orderbook → StrMap
  | [], key, ob => [(key, ob)]
  | (k, o) :: rest, key, ob =>
    if key = k then (k, ob) :: rest else (k, o) :: stInsert rest key ob

/-- The get-or-insert preamble both stateful parsers run: fetch the keyed
book, inserting a fresh one first when the key is absent. -/
def getOrNew (st : StrMap) (key : String) (venue : String) : Orderbook × StrMap :=
  match stLookup st key with
  | some ob => (ob, st)
  | none => (Orderbook.new venue, stInsert st key (Orderbook.new venue))

/-- The `for [price_str, quantity_str] in ...` loops: parse and insert each
pair, stopping at the first parse error; the book reached so far is returned
alongside so the in-place mutation of the map entry stays observable. -/
def insertPairs (side : Side) : Orderbook → List (String × String) → Orderbook × Option String
  | ob, [] => (ob, none)
  | ob, (ps, qs) :: rest =>
    match parseDecimal ps with
    | none => (ob, some "price parse error")
    | some p =>
      match parseDecimal qs with
      | none => (ob, some "quantity parse error")
      | some q => insertPairs side (ob.insert side p q) rest

/-- binance_parse (src/apitree/wsapi.rs, lines 43-108) after the serde_json
string decode: look up the "dummy" accumulator slot (inserting a fresh book
when absent), then either apply a ticker overlay, short-circuit Ok(None) on
the subscription-ack shape, reject a non-null result, or replace both sides
with the frame's depth. Returns the Result and the accumulator afterwards. -/
def binance_parse (msg : BinanceMsg) (st : StrMap) :
    Except String (Option Orderbook) × StrMap :=
  let os := getOrNew st "dummy" "binance"
  let ob := os.1
  let st1 := os.2
  match msg with
  | .ticker t =>
    match parseDecimal t.close with
    | none => (.error "close parse error", st1)
    | some c =>
      match parseDecimal t.volume with
      | none => (.error "volume parse error", stInsert st1 "dummy" { ob with last_price := c })
      | some v =>
        let ob2 := { ob with last_price := c, volume := v }
        (.ok (some ob2), stInsert st1 "dummy" ob2)
  | .depth d =>
    if d.last_update_id = 0 ∧ d.bids = [] ∧ d.asks = [] then (.ok none, st1)
    else if d.result.isNull = false then (.error "result not empty", st1)
    else
      let cleared := { ob with bid := [], ask := [] }
      match insertPairs .Bid cleared d.bids with
      | (obPart, some e) => (.error e, stInsert st1 "dummy" obPart)
      | (obB, none) =>
        match insertPairs .Ask obB d.asks with
        | (obPart, some e) => (.error e, stInsert st1 "dummy" obPart)
        | (obBA, none) => (.ok (some obBA), stInsert st1 "dummy" obBA)

/-- C3 (amended): a frame with a non-null result field and no depth data is
an error only when its lastUpdateId is non-zero; with lastUpdateId 0 the
subscription-ack check fires first and returns None (see the
counterexample). -/
theorem binance_nonnull_result_error (d : PartialBookDepth) (st : StrMap)
    (hres : d.result.isNull = false) (hid : d.last_update_id ≠ 0)
    (hb : d.bids = []) (ha : d.asks = []) :
    (binance_parse (.depth d) st).1 = .error "result not empty" := by
  simp [binance_parse, hid, hres, hb, ha]

/-- Witness for binance_nonnull_result_error: lastUpdateId 5, result true,
no depth. -/
theorem binance_nonnull_result_error_witness :
    (binance_parse (.depth ⟨5, [], [], .jbool true, 1⟩) []).1 = .error "result not empty" :=
  binance_nonnull_result_error ⟨5, [], [], .jbool true, 1⟩ [] rfl (by decide) rfl rfl

/-- Counterexample to C3 as stated: the frame with id 1 and result true but
lastUpdateId absent (defaulted to 0) has a non-null result and no depth,
yet the parser returns Ok(None) rather than an error, because the
subscription-ack check runs first. -/
theorem binance_nonnull_result_ack_cex :
    (binance_parse (.depth ⟨0, [], [], .jbool true, 1⟩) []).1 = .ok none := rfl

/-- The subscription-ack frame of scenario E2. -/
def binanceAckMsg : BinanceMsg := .depth ⟨0, [], [], .null, 1⟩

/-- C9 (amended): on the subscribe ack the parser returns Ok(None), and the
accumulator is unchanged provided its "dummy" slot is already populated; on
a fresh accumulator the get-or-insert preamble first inserts an empty book
(see the counterexample). -/
theorem binance_ack_returns_none_state (st : StrMap)
    (h : (stLookup st "dummy").isSome = true) :
    binance_parse binanceAckMsg st = (.ok none, st) := by
  cases hs : stLookup st "dummy" with
  | none => rw [hs] at h; simp at h
  | some ob => simp [binance_parse, getOrNew, hs, binanceAckMsg]

/-- Witness for binance_ack_returns_none_state on an accumulator whose dummy
slot holds the fresh binance book. -/
theorem binance_ack_returns_none_state_witness :
    binance_parse binanceAckMsg [("dummy", Orderbook.new "binance")]
      = (.ok none, [("dummy", Orderbook.new "binance")]) :=
  binance_ack_returns_none_state [("dummy", Orderbook.new "binance")] rfl

/-- Counterexample to C9 as stated: on an empty accumulator the subscribe ack
does change state — the get-or-insert preamble inserts the dummy entry
before the ack check runs. -/
theorem binance_ack_inserts_dummy_cex :
    (binance_parse binanceAckMsg []).2 ≠ ([] : StrMap) := by decide

/-! ## Kraken parser (src/apitree/wsapi.rs, lines 158-254)

kraken_parser indexes `raw.as_bytes()[0]`, `result[2]`, `result[3]`,
`result[1]` and the delta fields `v[0]`, `v[1]` without bounds checks; Rust
panics when these are out of bounds, which the embedding makes explicit with
the PResult.panic outcome. The serde_json::from_str stage (external library)
splits the embedding in two: kraken_raw_dispatch covers everything before the
decode, and kraken_parser_decoded covers everything after a successful decode
of the raw text into a JSON array. On an error or panic outcome the Rust
global map keeps whatever partial mutation already happened; the embedding
returns the outcome without a state, and no theorem below depends on the
post-error accumulator. -/

/-- Outcome of a Rust computation that can panic, fail, or succeed. -/
inductive PResult (α : Type) where
  | panic
  | err (msg : String)
  | ok (a : α)
deriving DecidableEq, Repr

/-- Sequencing of panicking computations: panic and error short-circuit. -/
def PResult.bind {α β : Type} : PResult α → (α → PResult β) → PResult β
  | .panic, _ => .panic
  | .err e, _ => .err e
  | .ok a, f => f a

/-- The pre-decode steps of kraken_parser (lines 159-161): indexing byte 0 of
the raw text panics on the empty string; a leading brace returns Ok(None)
without decoding; otherwise (ok false) the text goes to serde_json::from_str. -/
def kraken_raw_dispatch (raw : String) : PResult Bool :=
  if raw = "" then .panic
  else .ok (raw.front == '\x7b')

/-- The kraken book-channel Data struct: `as`/`bs` are snapshot triples,
`a`/`b` are delta rows of arbitrary length, all serde-defaulted to empty. -/
structure KrakenBookData where
  as_ : List (String × String × String)
  bs : List (String × String × String)
  a : List (List String)
  b : List (List String)

/-- serde decode of a [String; 3] element. -/
def decodeStrTriple : JVal → Option (String × String × String)
  | .jarr [.jstr x, .jstr y, .jstr z] => some (x, y, z)
  | _ => none

/-- serde decode of Vec<[String; 3]>. -/
def decodeTripleList : JVal → Option (List (String × String × String))
  | .jarr xs => xs.mapM decodeStrTriple
  | _ => none

/-- serde decode of a Vec<String> row. -/
def decodeStrRow : JVal → Option (List String)
  | .jarr xs => xs.mapM JVal.asString
  | _ => none

/-- serde decode of Vec<Vec<String>>. -/
def decodeRowList : JVal → Option (List (List String))
  | .jarr xs => xs.mapM decodeStrRow
  | _ => none

/-- JSON object field lookup (serde struct field matching). -/
def objGet (fields : List (String × JVal)) (k : String) : Option JVal :=
  match fields with
  | [] => none
  | (n, v) :: rest => if n = k then some v else objGet rest k

/-- An optional Vec<[String; 3]> field, serde-defaulted to empty when absent. -/
def fieldTriples (fs : List (String × JVal)) (k : String) :
    Option (List (String × String × String)) :=
  match objGet fs k with
  | none => some []
  | some w => decodeTripleList w

/-- An optional Vec<Vec<String>> field, serde-defaulted to empty when absent. -/
def fieldRows (fs : List (String × JVal)) (k : String) : Option (List (List String)) :=
  match objGet fs k with
  | none => some []
  | some w => decodeRowList w

/-- serde_json::from_value::<Data> for the book channel. -/
def decodeData : JVal → Option KrakenBookData
  | .jobj fs => do
    let asL ← fieldTriples fs "as"
    let bsL ← fieldTriples fs "bs"
    let aL ← fieldRows fs "a"
    let bL ← fieldRows fs "b"
    some ⟨asL, bsL, aL, bL⟩
  | _ => none

/-- serde decode of a [String; 2] element. -/
def decodeStrPair : JVal → Option (String × String)
  | .jarr [.jstr x, .jstr y] => some (x, y)
  | _ => none

/-- An optional [String; 2] field, serde-defaulted to ["", ""] when absent. -/
def fieldPair (fs : List (String × JVal)) (k : String) : Option (String × String) :=
  match objGet fs k with
  | none => some ("", "")
  | some w => decodeStrPair w

/-- serde_json::from_value::<Data> for the ticker channel: the c (close) and
v (volume) pairs. -/
def decodeTickerData : JVal → Option ((String × String) × (String × String))
  | .jobj fs => do
    let c ← fieldPair fs "c"
    let v ← fieldPair fs "v"
    some (c, v)
  | _ => none

/-- One snapshot entry `for [price_str, quantity_str, _timestamp] in ...`:
parse both decimals and insert. -/
def applySnapEntry (side : Side) (ob : Orderbook) (e : String × String × String) :
    PResult Orderbook :=
  match parseDecimal e.1 with
  | none => .err "price parse error"
  | some p =>
    match parseDecimal e.2.1 with
    | none => .err "quantity parse error"
    | some q => .ok (ob.insert side p q)

/-- One delta entry `for v in data.a { &v[0]; &v[1]; ... }`: the two
unchecked indexes panic when the row has fewer than two fields; otherwise
parse both decimals and insert. -/
def applyDeltaEntry (side : Side) (ob : Orderbook) (v : List String) : PResult Orderbook :=
  match v.get? 0 with
  | none => .panic
  | some ps =>
    match v.get? 1 with
    | none => .panic
    | some qs =>
      match parseDecimal ps with
      | none => .err "price parse error"
      | some p =>
        match parseDecimal qs with
        | none => .err "quantity parse error"
        | some q => .ok (ob.insert side p q)

/-- A book-side application loop, short-circuiting on panic or error. -/
def foldPR {β : Type} (f : Orderbook → β → PResult Orderbook) :
    Orderbook → List β → PResult Orderbook
  | ob, [] => .ok ob
  | ob, x :: xs =>
    match f ob x with
    | .panic => .panic
    | .err e => .err e
    | .ok ob2 => foldPR f ob2 xs

/-- The body of the kraken book branch (lines 194-226) on the pair's
accumulated book: clear both sides when any snapshot array is present, apply
the bs snapshot, the b deltas, the as snapshot and the a deltas in source
order, then trim to 25 levels per side. -/
def krakenApplyBook (d : KrakenBookData) (ob0 : Orderbook) : PResult Orderbook :=
  let ob1 := if 0 < d.bs.length ∨ 0 < d.as_.length then ob0.clear else ob0
  ((((foldPR (applySnapEntry .Bid) ob1 d.bs).bind
    (fun ob => foldPR (applyDeltaEntry .Bid) ob d.b)).bind
    (fun ob => foldPR (applySnapEntry .Ask) ob d.as_)).bind
    (fun ob => foldPR (applyDeltaEntry .Ask) ob d.a)).bind
    (fun ob => .ok (ob.trim 25))

/-- kraken_parser after a successful serde_json::from_str of the raw text
into a JSON array (lines 162-253): the unchecked indexes result[2] and
result[3] panic on arrays shorter than 3 resp. 4 elements; the channel name
and pair must be strings; the book branch applies krakenApplyBook to the
pair's accumulator entry; the ticker branch overlays volume and last price;
any other channel returns Ok(None). -/
def kraken_parser_decoded (result : List JVal) (st : StrMap) :
    PResult (Option Orderbook × StrMap) :=
  match result.get? 2 with
  | none => .panic
  | some v2 =>
    match v2.asString with
    | none => .err "channel_name decode error"
    | some channel_name =>
      match result.get? 3 with
      | none => .panic
      | some v3 =>
        match v3.asString with
        | none => .err "pair decode error"
        | some pair =>
          if startsWithStr channel_name "book" then
            match result.get? 1 with
            | none => .panic
            | some v1 =>
              match decodeData v1 with
              | none => .err "data decode error"
              | some data =>
                let os := getOrNew st pair "kraken"
                match krakenApplyBook data os.1 with
                | .panic => .panic
                | .err e => .err e
                | .ok ob2 => .ok (some ob2, stInsert os.2 pair ob2)
          else if channel_name = "ticker" then
            match result.get? 1 with
            | none => .panic
            | some v1 =>
              match decodeTickerData v1 with
              | none => .err "ticker decode error"
              | some cv =>
                let os := getOrNew st pair "kraken"
                match parseDecimal cv.2.2 with
                | none => .err "volume parse error"
                | some vol =>
                  match parseDecimal cv.1.1 with
                  | none => .err "close parse error"
                  | some cl =>
                    let ob2 := { os.1 with volume := vol, last_price := cl }
                    .ok (some ob2, stInsert os.2 pair ob2)
          else .ok (none, st)

lemma lookupKey_eq_none (m : SideMap) (p : Rat) (h : ∀ e ∈ m, e.1 ≠ p) :
    lookupKey m p = none := by
  induction m with
  | nil => rfl
  | cons e rest ih =>
    obtain ⟨q, w⟩ := e
    simp only [lookupKey]
    rw [if_neg (fun hc => h (q, w) (List.mem_cons_self _ _) hc.symm)]
    exact ih (fun z hz => h z (List.mem_cons_of_mem _ hz))

lemma lookupKey_mapRemove_self (m : SideMap) (p : Rat) (hm : sortedKeys m) :
    lookupKey (mapRemove m p) p = none := by
  induction m with
  | nil => rfl
  | cons e rest ih =>
    obtain ⟨q, w⟩ := e
    simp only [mapRemove]
    by_cases hpq : p = q
    · rw [if_pos hpq]
      exact lookupKey_eq_none rest p
        (fun z hz => by
          have := (List.pairwise_cons.mp hm).1 z hz
          simp only at this
          exact fun hc => absurd (hpq ▸ hc) (ne_of_gt this))
    · rw [if_neg hpq]
      simp only [lookupKey]
      rw [if_neg hpq]
      exact ih (List.pairwise_cons.mp hm).2

lemma lookupKey_mapInsert_self (m : SideMap) (p v : Rat) :
    lookupKey (mapInsert m p v) p = some v := by
  induction m with
  | nil => simp [mapInsert, lookupKey]
  | cons e rest ih =>
    obtain ⟨q, w⟩ := e
    simp only [mapInsert]
    rcases lt_trichotomy p q with h | h | h
    · rw [if_pos h]
      simp [lookupKey]
    · rw [if_neg (by simp [h]), if_pos h]
      simp [lookupKey]
    · rw [if_neg (lt_asymm h), if_neg (ne_of_gt h)]
      simp only [lookupKey]
      rw [if_neg (ne_of_gt h)]
      exact ih

lemma Orderbook.clear_clear (ob : Orderbook) : ob.clear.clear = ob.clear := rfl

lemma bind_trim_ok {r : PResult Orderbook} {ob2 : Orderbook}
    (h : r.bind (fun ob : Orderbook => PResult.ok (ob.trim 25)) = .ok ob2) :
    ∃ obx : Orderbook, ob2 = obx.trim 25 := by
  cases r with
  | panic => simp [PResult.bind] at h
  | err e => simp [PResult.bind] at h
  | ok obx =>
    refine ⟨obx, ?_⟩
    simp only [PResult.bind, PResult.ok.injEq] at h
    exact h.symm

/-- The E6 snapshot frame: a book-25 message whose payload sets asks
100 → 5 and 101 → 7. -/
def snapFrame : List JVal :=
  [.jnum 0,
   .jobj [("as", .jarr [.jarr [.jstr "100", .jstr "5", .jstr "t"],
                        .jarr [.jstr "101", .jstr "7", .jstr "t"]])],
   .jstr "book-25", .jstr "XBT/USD"]

/-- The E6 delta frame: a book-25 message with the single ask delta
["100", "0", "t"]. -/
def deltaFrame : List JVal :=
  [.jnum 0,
   .jobj [("a", .jarr [.jarr [.jstr "100", .jstr "0", .jstr "t"]])],
   .jstr "book-25", .jstr "XBT/USD"]

/-- The accumulated kraken book after the E6 snapshot. -/
def obAfterSnap : Orderbook := { Orderbook.new "kraken" with ask := [(100, 5), (101, 7)] }

/-- The accumulated kraken book after the E6 delta: ask 100 removed. -/
def obFinal : Orderbook := { Orderbook.new "kraken" with ask := [(101, 7)] }

/-- C6: on a kraken book frame, a non-empty snapshot array makes the result
independent of the prior sides (both are cleared before applying); deltas
follow insert-with-zero-delete semantics (given the BTreeMap key-uniqueness
invariant for the zero case); every successful application is trimmed to 25
levels per side; and the concrete E6 scenario — snapshot asks 100 → 5,
101 → 7 then delta ["100","0","t"] — removes ask 100 and keeps 101 → 7. -/
theorem kraken_book_semantics :
    (∀ (d : KrakenBookData) (ob : Orderbook), (0 < d.bs.length ∨ 0 < d.as_.length) →
        krakenApplyBook d ob = krakenApplyBook d ob.clear)
    ∧ (∀ (ob : Orderbook) (p : Rat), sortedKeys ob.ask →
        lookupKey (ob.insert .Ask p 0).ask p = none)
    ∧ (∀ (ob : Orderbook) (p : Rat), sortedKeys ob.bid →
        lookupKey (ob.insert .Bid p 0).bid p = none)
    ∧ (∀ (ob : Orderbook) (p q : Rat), q ≠ 0 →
        lookupKey (ob.insert .Ask p q).ask p = some q)
    ∧ (∀ (ob : Orderbook) (p q : Rat), q ≠ 0 →
        lookupKey (ob.insert .Bid p q).bid p = some q)
    ∧ (∀ (d : KrakenBookData) (ob ob2 : Orderbook), krakenApplyBook d ob = .ok ob2 →
        ob2.bid.length ≤ 25 ∧ ob2.ask.length ≤ 25)
    ∧ kraken_parser_decoded snapFrame [] = .ok (some obAfterSnap, [("XBT/USD", obAfterSnap)])
    ∧ kraken_parser_decoded deltaFrame [("XBT/USD", obAfterSnap)]
        = .ok (some obFinal, [("XBT/USD", obFinal)])
    ∧ obFinal.ask = [(101, 7)]
    ∧ lookupKey obFinal.ask 100 = none := by
  refine ⟨?_, ?_, ?_, ?_, ?_, ?_, ?_, ?_, ?_, ?_⟩
  · intro d ob h
    simp only [krakenApplyBook]
    rw [if_pos h, if_pos h, Orderbook.clear_clear]
  · intro ob p hs
    simp only [Orderbook.insert, if_pos rfl]
    exact lookupKey_mapRemove_self ob.ask p hs
  · intro ob p hs
    simp only [Orderbook.insert, if_pos rfl]
    exact lookupKey_mapRemove_self ob.bid p hs
  · intro ob p q hq
    simp only [Orderbook.insert, if_neg hq]
    exact lookupKey_mapInsert_self (mapRemove ob.ask p) p q
  · intro ob p q hq
    simp only [Orderbook.insert, if_neg hq]
    exact lookupKey_mapInsert_self (mapRemove ob.bid p) p q
  · intro d ob ob2 h
    simp only [krakenApplyBook] at h
    obtain ⟨obx, rfl⟩ := bind_trim_ok h
    exact ⟨trim_bid_length_le obx 25, trim_ask_length_le obx 25⟩
  · rfl
  · rfl
  · rfl
  · rfl

/-- A concrete kraken payload with a one-entry ask snapshot. -/
def krakenDW : KrakenBookData := ⟨[("100", "5", "t")], [], [], []⟩

/-- Witness for kraken_book_semantics: the snapshot payload krakenDW applied
to the fresh kraken book clears first, and a zero-quantity insert removes
the price. -/
theorem kraken_book_semantics_witness :
    krakenApplyBook krakenDW (Orderbook.new "kraken")
      = krakenApplyBook krakenDW (Orderbook.new "kraken").clear
    ∧ lookupKey ((obAfterSnap.insert .Ask 100 0).ask) 100 = none
    ∧ lookupKey ((obAfterSnap.insert .Ask 100 5).ask) 100 = some 5 :=
  ⟨kraken_book_semantics.1 krakenDW (Orderbook.new "kraken") (Or.inr (by decide)),
   kraken_book_semantics.2.1 obAfterSnap 100 (by decide),
   kraken_book_semantics.2.2.2.1 obAfterSnap 100 5 (by decide)⟩

/-- C10 (the claim is right, the code panics): the kraken parse function is
not total — it panics on the empty string (byte 0 out of bounds), on decoded
JSON arrays with fewer than 3 or 4 elements (result[2], result[3]), and on
book delta rows with fewer than 2 fields (v[0], v[1]). -/
theorem kraken_parser_panics :
    kraken_raw_dispatch "" = .panic
    ∧ kraken_parser_decoded [.jnum 1] [] = .panic
    ∧ kraken_parser_decoded [.jnum 0, .jobj [], .jstr "book-25"] [] = .panic
    ∧ kraken_parser_decoded
        [.jnum 0, .jobj [("a", .jarr [.jarr [.jstr "100"]])], .jstr "book-25", .jstr "XBT/USD"] []
        = .panic :=
  ⟨rfl, rfl, rfl, rfl⟩

/-! ## The ingester streaming loop and its supervising executor
(src/server.rs, Exchange::next lines 133-178 and executor lines 197-229)

Exchange::next reads WebSocket frames from the split stream. The inbound
stream is embedded as a list: each element is the Result tungstenite hands
back for one frame, and the end of the list is the stream returning None.
Binary frames carry their already-UTF-8-decoded text (the decode-failure
path is not exercised here); the Frame(_) arm is unreachable!() per the
tungstenite contract for a read loop and has no constructor. The venue
parser (looked up from the registry by the exchange name) is passed in as a
function together with the registry's per-venue state made implicit. -/

/-- tungstenite protocol::Message as matched by Exchange::next. -/
inductive WsMessage where
  | text (s : String)
  | binary (s : String)
  | ping
  | pong
  | close
deriving DecidableEq, Repr

/-- The value of one `client.next().await` call in the executor loop. -/
inductive NextResult where
  | okSome (ob : Orderbook)
  | okNone
  | err (e : String)
deriving DecidableEq, Repr

/-- Exchange::next (src/server.rs, lines 149-177) on the remaining inbound
frames: a stream error or a Close frame is returned as Err; a Ping or Pong
frame returns Ok(None) immediately; a Text or Binary frame is parsed — a
parser error is returned as Err, a parsed book is trimmed and returned as
Ok(Some), and a parser None is skipped, continuing with the next frame; an
exhausted stream returns Ok(None). -/
def exchange_next (parse : String → Except String (Option Orderbook)) (level : Nat) :
    List (Except String WsMessage) → NextResult
  | [] => .okNone
  | .error e :: _ => .err e
  | .ok m :: rest =>
    match m with
    | .text raw | .binary raw =>
      (match parse raw with
       | .error e => .err e
       | .ok (some ob) => .okSome (ob.trim level)
       | .ok none => exchange_next parse level rest)
    | .ping | .pong => .okNone
    | .close => .err "close"

/-- What the executor does with one Exchange::next outcome. -/
inductive ExecAction where
  | emit (venue : String) (ob : Orderbook)
  | clearAndReconnect
deriving DecidableEq, Repr

/-- One iteration of the executor loop (src/server.rs, lines 207-228):
Ok(Some(book)) sends the (venue, book) tuple and continues; Ok(None) and
Err both fall through to clear() on the venue, a fresh Exchange, and a
reconnect. -/
def executor_step (venue : String) : NextResult → ExecAction
  | .okSome ob => .emit venue ob
  | .okNone => .clearAndReconnect
  | .err _ => .clearAndReconnect

/-- C2 (amended): a Ping or Pong frame is not skipped — Exchange::next
returns Ok(None) immediately (no (venue, book) tuple, no further frames
read), and the supervising executor treats Ok(None) exactly like stream
end: it invokes clear() and reconnects. -/
theorem ping_pong_returns_none_then_reconnect
    (parse : String → Except String (Option Orderbook)) (level : Nat)
    (rest : List (Except String WsMessage)) (venue : String) (m : WsMessage)
    (h : m = .ping ∨ m = .pong) :
    exchange_next parse level (.ok m :: rest) = .okNone
    ∧ executor_step venue (exchange_next parse level (.ok m :: rest)) = .clearAndReconnect := by
  rcases h with h | h <;> subst h <;> exact ⟨rfl, rfl⟩

/-- Witness for ping_pong_returns_none_then_reconnect at a Ping frame. -/
theorem ping_pong_returns_none_then_reconnect_witness :
    exchange_next (fun _ => .ok none) 10 [.ok .ping] = .okNone
    ∧ executor_step "binance" (exchange_next (fun _ => .ok none) 10 [.ok .ping])
        = .clearAndReconnect :=
  ping_pong_returns_none_then_reconnect (fun _ => .ok none) 10 [] "binance" .ping (Or.inl rfl)

/-- Counterexample to C2 as stated: with a parser that would yield a book
for any text frame, a Ping followed by a parseable Text frame still makes
next() return Ok(None) — the loop does not continue to the next frame — and
the executor responds to Ok(None) with clear-and-reconnect rather than
ignoring the Ping. -/
theorem ping_frame_triggers_reconnect_cex :
    exchange_next (fun _ => .ok (some (Orderbook.new "x"))) 10
        [.ok .ping, .ok (.text "frame")] = .okNone
    ∧ exchange_next (fun _ => .ok (some (Orderbook.new "x"))) 10
        [.ok .ping, .ok (.text "frame")] ≠ .okSome ((Orderbook.new "x").trim 10)
    ∧ executor_step "x" (exchange_next (fun _ => .ok (some (Orderbook.new "x"))) 10
        [.ok .ping, .ok (.text "frame")]) = .clearAndReconnect := by
  refine ⟨rfl, ?_, rfl⟩
  decide

/-! ## Broadcast fan-out (src/proto/mod.rs, make_future lines 50-61 and
BroadcastStream::poll_next lines 71-84)

The tokio broadcast receiver's recv() either yields an item sent by the
producer (itself a Result<Summary, Status>), or fails with
RecvError::Lagged(n) when the subscriber fell behind by more than the
channel capacity, or RecvError::Closed when the producer side is gone.
One recv outcome is one element of the input list; the stream end is
reaching the end of the list or poll_next returning None. -/

/-- A grpc status code as matched in poll_next. -/
inductive GCode where
  | aborted
  | deadlineExceeded
  | invalidArgument
deriving DecidableEq, Repr

/-- tonic Status: code plus message. -/
structure GStatus where
  code : GCode
  message : String
deriving DecidableEq, Repr

/-- One rx.recv().await outcome inside make_future. -/
inductive RecvOutcome where
  | recv (v : Except GStatus Summary)
  | lagged (n : Nat)
  | closed
deriving Repr

/-- make_future (src/proto/mod.rs, lines 50-61): pass a received item
through; map RecvError::Closed to Aborted "closed" and RecvError::Lagged to
DeadlineExceeded "timeout". -/
def make_future : RecvOutcome → Except GStatus Summary
  | .recv v => v
  | .closed => .error ⟨.aborted, "closed"⟩
  | .lagged _ => .error ⟨.deadlineExceeded, "timeout"⟩

/-- BroadcastStream::poll_next (src/proto/mod.rs, lines 73-83): an Ok item
is yielded; an Err with code Aborted ends the stream (None); any other Err
is yielded as an error item and the stream continues. -/
def poll_next (o : RecvOutcome) : Option (Except GStatus Summary) :=
  match make_future o with
  | .ok item => some (.ok item)
  | .error st =>
    match st.code with
    | .aborted => none
    | _ => some (.error st)

/-- The items a subscriber's stream yields over a sequence of recv
outcomes: poll_next is applied to each in turn, the stream ending at the
first None. -/
def streamItems : List RecvOutcome → List (Except GStatus Summary)
  | [] => []
  | o :: rest =>
    match poll_next o with
    | none => []
    | some it => it :: streamItems rest

/-- C8: when the subscriber has lagged (fallen behind by more than the
channel capacity), the next read yields the DeadlineExceeded "timeout"
error item and the stream continues with the remaining outcomes; when the
producer side is closed, the Aborted "closed" status is converted to
end-of-stream — the stream terminates normally with no error item. -/
theorem broadcast_lag_and_close (n : Nat) (rest : List RecvOutcome) :
    streamItems (.lagged n :: rest)
      = .error ⟨.deadlineExceeded, "timeout"⟩ :: streamItems rest
    ∧ streamItems (.closed :: rest) = [] :=
  ⟨rfl, rfl⟩

end MarketAgg
